import Mathlib

/-!
Verification of the version-derivation and submodule-aggregation pipeline of
the git-version repository (crates git-version and git-version-macro).

The Rust sources are embedded shallowly:
  * Rust byte strings (Vec<u8>, and String as its UTF-8 bytes) become Str,
    a list of natural numbers below 256.
  * the external git process is a parameter of the model: a World carries a
    function from the invoked directory and argument list to the outcome of
    the spawned process, together with the ambient environment variables.
  * fallible functions return Except, mirroring Result in the source.
-/

namespace GitVersion

/-- A Rust byte string (Vec<u8>, or String as UTF-8 bytes). -/
abbrev Str := List Nat

/-- UTF-8 encoding of one Unicode code point, used to write byte-string
literals from Lean string literals. -/
def utf8Enc (c : Nat) : List Nat :=
  if c < 0x80 then [c]
  else if c < 0x800 then [0xC0 + c / 64, 0x80 + c % 64]
  else if c < 0x10000 then [0xE0 + c / 4096, 0x80 + (c / 64) % 64, 0x80 + c % 64]
  else [0xF0 + c / 262144, 0x80 + (c / 4096) % 64, 0x80 + (c / 64) % 64, 0x80 + c % 64]

/-- The byte string holding the UTF-8 encoding of a Lean string literal. -/
def str (s : String) : Str :=
  (s.data.map (fun c => utf8Enc c.toNat)).flatten

/-- Is a byte a UTF-8 continuation byte (0x80 to 0xBF)? -/
def utf8Cont (b : Nat) : Bool :=
  0x80 ≤ b && b ≤ 0xBF

/-- UTF-8 validity of a byte string, as checked by std::str::from_utf8 in
Rust: shortest-form sequences only, surrogates and code points above
0x10FFFF rejected (the RFC 3629 table). -/
def utf8Valid : List Nat → Bool
  | [] => true
  | b :: rest =>
    if b ≤ 0x7F then utf8Valid rest
    else match rest with
    | [] => false
    | b1 :: rest1 =>
      if 0xC2 ≤ b && b ≤ 0xDF then utf8Cont b1 && utf8Valid rest1
      else match rest1 with
      | [] => false
      | b2 :: rest2 =>
        if b = 0xE0 then (0xA0 ≤ b1 && b1 ≤ 0xBF) && utf8Cont b2 && utf8Valid rest2
        else if (0xE1 ≤ b && b ≤ 0xEC) || b = 0xEE || b = 0xEF then
          utf8Cont b1 && utf8Cont b2 && utf8Valid rest2
        else if b = 0xED then (0x80 ≤ b1 && b1 ≤ 0x9F) && utf8Cont b2 && utf8Valid rest2
        else match rest2 with
        | [] => false
        | b3 :: rest3 =>
          if b = 0xF0 then (0x90 ≤ b1 && b1 ≤ 0xBF) && utf8Cont b2 && utf8Cont b3 && utf8Valid rest3
          else if 0xF1 ≤ b && b ≤ 0xF3 then
            utf8Cont b1 && utf8Cont b2 && utf8Cont b3 && utf8Valid rest3
          else if b = 0xF4 then (0x80 ≤ b1 && b1 ≤ 0x8F) && utf8Cont b2 && utf8Cont b3 && utf8Valid rest3
          else false

/-- Split a byte string at every occurrence of the byte sep, mirroring
slice::split in Rust: the separators are dropped and the result always has
at least one (possibly empty) chunk. -/
def splitBytes (sep : Nat) : List Nat → List (List Nat)
  | [] => [[]]
  | b :: rest =>
    if b = sep then [] :: splitBytes sep rest
    else match splitBytes sep rest with
    | [] => [[b]]
    | chunk :: chunks => (b :: chunk) :: chunks

/-- Remove a trailing newline from a byte string
(git-version-macro/src/utils.rs, strip_trailing_newline). -/
def strip_trailing_newline (input : Str) : Str :=
  if input.getLast? = some 10 then input.dropLast else input

/-- The exit status of a finished child process, as observed through
std::process::ExitStatus on Unix: either a normal exit with a code, or a
termination by a signal. -/
inductive ExitStatus where
  | exited (code : Int)
  | signaled (signal : Int)
deriving DecidableEq

/-- ExitStatus::success — did the process exit with code zero? -/
def ExitStatus.success : ExitStatus → Bool
  | .exited code => code == 0
  | .signaled _ => false

/-- ExitStatus::code — the exit code, absent when the process was killed
by a signal. -/
def ExitStatus.code : ExitStatus → Option Int
  | .exited code => some code
  | .signaled _ => none

/-- ExitStatusExt::signal — the killing signal, when there is one. -/
def ExitStatus.signal : ExitStatus → Option Int
  | .exited _ => none
  | .signaled signal => some signal

/-- std::process::Output: the exit status and the captured stdout and
stderr byte streams of a finished child process. -/
structure Output where
  status : ExitStatus
  stdout : Str
  stderr : Str
deriving DecidableEq

/-- The errors produced by the git helpers in
git-version-macro/src/utils.rs. The source reports them as formatted
strings; each constructor stands for one of the format templates, with the
formatted-in values as fields. -/
inductive GitError where
  /-- Command not found: is git installed? (spawn error of kind NotFound) -/
  | notFound (program : Str)
  /-- Failed to run the command (any other spawn error). -/
  | spawnFailed (program : Str) (detail : Str)
  /-- Failed to wait for the command. -/
  | waitFailed (program : Str) (detail : Str)
  /-- The program exited with a non-zero status, optionally with the first
  line of its stderr as detail. -/
  | toolFailed (program : Str) (code : Int) (detail : Option Str)
  /-- The program was killed by a signal. -/
  | toolKilled (program : Str) (signal : Int)
  /-- The program terminated neither with a code nor by a signal. -/
  | unknownExit (program : Str)
  /-- The output of the program was not valid UTF-8. -/
  | invalidUtf8 (program : Str)
deriving DecidableEq

/-- The outcome of trying to spawn a child process and wait for it, the
part of run_git performed by the operating system. -/
inductive RunOutcome where
  /-- spawn failed with io::ErrorKind::NotFound. -/
  | spawnNotFound
  /-- spawn failed with any other io error. -/
  | spawnFailed (detail : Str)
  /-- wait_with_output failed. -/
  | waitFailed (detail : Str)
  /-- The process ran to completion with this captured output. -/
  | completed (output : Output)
deriving DecidableEq

/-- Classify the exit of a completed process
(git-version-macro/src/utils.rs, collect_output): success returns stdout
as is; a non-zero exit code becomes a toolFailed error carrying the first
chunk of stderr split on newline, kept only when it is valid UTF-8 and
non-empty; a signal becomes toolKilled. -/
def collect_output (program : Str) (output : Output) : Except GitError Str :=
  if output.status.success then
    .ok output.stdout
  else match output.status.code with
  | some status =>
    let message := ((splitBytes 10 output.stderr).head?.bind
      (fun x => if utf8Valid x then some x else none)).filter
      (fun x => !x.isEmpty)
    match message with
    | some message => .error (.toolFailed program status (some message))
    | none => .error (.toolFailed program status none)
  | none =>
    match output.status.signal with
    | some signal => .error (.toolKilled program signal)
    | none => .error (.unknownExit program)

/-- Run a git command (git-version-macro/src/utils.rs, run_git): map the
spawn and wait failures, classify the exit with collect_output, strip one
trailing newline from stdout, and check the result is valid UTF-8. The
process itself is external, so its outcome is the parameter. The source
always spawns the program git, so the notFound message names git. -/
def run_git (program : Str) (outcome : RunOutcome) : Except GitError Str :=
  match outcome with
  | .spawnNotFound => .error (.notFound (str "git"))
  | .spawnFailed detail => .error (.spawnFailed (str "git") detail)
  | .waitFailed detail => .error (.waitFailed program detail)
  | .completed output =>
    match collect_output program output with
    | .error e => .error e
    | .ok out =>
      let out := strip_trailing_newline out
      if utf8Valid out then .ok out else .error (.invalidUtf8 program)

/-- A filesystem path as the list of components joined onto it, mirroring
how the source only ever extends paths with Path::join on relative
components (the submodule display paths and the relative git dir). -/
abbrev Path := List Str

/-- Path::join with a single relative component: the component is appended,
with no normalization (Rust does not resolve dot-dot either). -/
def pathJoin (p : Path) (s : Str) : Path := p ++ [s]

/-- The ambient world of one macro expansion: the environment variables the
source reads and the behavior of the external git binary. run gives the
outcome of spawning git with a working directory (the argument of the -C
flag) and the remaining argument list. -/
structure World where
  /-- The current working directory of the compiler process. -/
  cwd : Path
  /-- The CARGO_MANIFEST_DIR environment variable, when set. -/
  manifest_dir : Option Path
  /-- The CARGO_PKG_VERSION environment variable, when set. -/
  cargo_pkg_version : Option Str
  /-- The outcome of running git -C dir args, decided by the outside
  world. -/
  run : Path → List Str → RunOutcome

/-- Run git describe in a directory with the caller-supplied argument list
(git-version-macro/src/utils.rs, describe). -/
def describe (w : World) (dir : Path) (args : List Str) : Except GitError Str :=
  run_git (str "git describe") (w.run dir (str "describe" :: args))

/-- Run git describe in the current working directory, as the single-target
macro does (describe_cwd in the macro crate). -/
def describe_cwd (w : World) (args : List Str) : Except GitError Str :=
  describe w w.cwd args

/-- Get the git directory for the given directory
(git-version-macro/src/utils.rs, git_dir): run git rev-parse --git-dir and
join the reported path onto the queried directory. -/
def git_dir (w : World) (dir : Path) : Except GitError Path :=
  match run_git (str "git rev-parse") (w.run dir [str "rev-parse", str "--git-dir"]) with
  | .error e => .error e
  | .ok path => .ok (pathJoin dir path)

/-- str::lines in Rust: split on the newline byte, drop the final empty
chunk left by a trailing newline, and strip one carriage return from the
end of every newline-terminated line. -/
def rustLines (s : Str) : List Str :=
  let segs := splitBytes 10 s
  let core := (segs.take (segs.length - 1)).map
    (fun l => if l.getLast? = some 13 then l.dropLast else l)
  match segs.getLast? with
  | some [] => core
  | none => core
  | some lastSeg => core ++ [lastSeg]

/-- Discover the submodules of a project
(git-version-macro/src/describe_submodules.rs, get_submodules): run
git submodule foreach --quiet --recursive echo dollar-displaypath and keep
the non-empty lines of its output. -/
def get_submodules (w : World) (dir : Path) : Except GitError (List Str) :=
  match run_git (str "git submodule")
      (w.run dir [str "submodule", str "foreach", str "--quiet", str "--recursive",
        str "echo $displaypath"]) with
  | .error e => .error e
  | .ok result => .ok ((rustLines result).filter (fun x => !x.isEmpty))

/-- The parsed arguments of the git_version macro
(git-version-macro/src/lib.rs, struct Args). The pfx, suffix, cargo_pfx,
cargo_suffix and fallback fields model the corresponding macro arguments
as the string values they contribute to the emitted concat expression. -/
structure Args where
  git_args : Option (List Str) := none
  pfx : Option Str := none
  suffix : Option Str := none
  cargo_pfx : Option Str := none
  cargo_suffix : Option Str := none
  fallback : Option Str := none

/-- The parsed arguments of the git_version_modules macro
(git-version-macro/src/describe_submodules.rs, struct GitModArgs). -/
structure GitModArgs where
  args : Option (List Str) := none
  pfx : Option Str := none
  suffix : Option Str := none
  fallback : Option Str := none

/-- The errors a macro implementation can report as a compile error, one
constructor per error site. -/
inductive MacroError where
  /-- Failed to determine the .git directory (from git_dependencies, or
  from the git_dir call of the submodule macro). -/
  | gitDir (e : GitError)
  /-- A git error reported verbatim at the call site. -/
  | git (e : GitError)
  /-- Unable to get git or cargo version. -/
  | noVersion
  /-- CARGO_MANIFEST_DIR is not set. -/
  | noManifestDir
deriving DecidableEq

/-- The dependency-tracking step of the single-target macro
(git-version-macro/src/lib.rs, git_dependencies): it fails exactly when
git_dir on the current working directory fails; the later canonicalization
failures are swallowed with a warning and the emitted include_bytes tokens
carry no value for this model. -/
def git_dependencies (w : World) : Except GitError Unit :=
  match git_dir w w.cwd with
  | .error e => .error e
  | .ok _ => .ok ()

/-- The single-target macro (git-version-macro/src/lib.rs,
git_version_impl). The value of the emitted expression is modelled as the
string it concatenates. -/
def git_version_impl (args : Args) (w : World) : Except MacroError Str :=
  let git_args := args.git_args.getD [str "--always", str "--dirty=-modified"]
  let cargo_fallback := args.cargo_pfx.isSome || args.cargo_suffix.isSome
  match describe_cwd w git_args with
  | .ok version =>
    match git_dependencies w with
    | .error e => .error (.gitDir e)
    | .ok _ => .ok ((args.pfx.getD []) ++ version ++ (args.suffix.getD []))
  | .error e =>
    if cargo_fallback then
      match w.cargo_pkg_version with
      | some version => .ok ((args.cargo_pfx.getD []) ++ version ++ (args.cargo_suffix.getD []))
      | none =>
        match args.fallback with
        | some fallback => .ok fallback
        | none => .error .noVersion
    else
      match args.fallback with
      | some fallback => .ok fallback
      | none => .error (.git e)

/-- Run git describe for each submodule
(git-version-macro/src/describe_submodules.rs, describe_submodules): for
every submodule in order, describe the directory joined onto the root; on
failure substitute the fallback when one is given and abort with the error
otherwise; push the version decorated with pfx and suffix. -/
def describe_submodules (w : World) (root : Path) (submodules : List Str)
    (describe_args : List Str) (pfx suffix : Str) (fallback : Option Str) :
    Except GitError (List Str) :=
  match submodules with
  | [] => .ok []
  | submodule :: rest =>
    match
      (match describe w (pathJoin root submodule) describe_args with
       | .ok version => .ok version
       | .error e =>
         match fallback with
         | some fallback => .ok fallback
         | none => .error e : Except GitError Str) with
    | .error e => .error e
    | .ok version =>
      match describe_submodules w root rest describe_args pfx suffix fallback with
      | .error e => .error e
      | .ok versions => .ok ((pfx ++ version ++ suffix) :: versions)

/-- The submodule macro (git-version-macro/src/describe_submodules.rs,
git_submodule_versions_impl): locate the git dir of the manifest
directory, enumerate the submodules, return the empty table when there are
none, and otherwise pair every module path with its version from
describe_submodules. -/
def git_submodule_versions_impl (args : GitModArgs) (w : World) :
    Except MacroError (List (Str × Str)) :=
  match w.manifest_dir with
  | none => .error .noManifestDir
  | some manifest_dir =>
    match git_dir w manifest_dir with
    | .error e => .error (.gitDir e)
    | .ok gitdir =>
      match get_submodules w manifest_dir with
      | .error e => .error (.git e)
      | .ok modules =>
        if modules.isEmpty then .ok []
        else
          let git_describe_args := args.args.getD [str "--always", str "--dirty=-modified"]
          let pfx := args.pfx.getD []
          let suffix := args.suffix.getD []
          let fallback := args.fallback
          match describe_submodules w (pathJoin gitdir (str "..")) modules
              git_describe_args pfx suffix fallback with
          | .error e => .error (.git e)
          | .ok versions => .ok (modules.zip versions)

/-- The stderr detail as the claim about collect_output words it: split
stderr on newline and take the first non-empty, valid-UTF-8 line. Written
from the claim, to be compared against what collect_output computes. -/
def claimed_first_stderr_line (stderr : Str) : Option Str :=
  ((splitBytes 10 stderr).filter (fun l => !l.isEmpty && utf8Valid l)).head?

/-- The stderr detail collect_output actually attaches: the first chunk of
the newline split, kept only when it is non-empty and valid UTF-8. -/
def first_line_detail (stderr : Str) : Option Str :=
  match (splitBytes 10 stderr).head? with
  | some l => if !l.isEmpty && utf8Valid l then some l else none
  | none => none

/-- A completed process with exit code 0 and the given stdout. -/
def outOk (stdout : Str) : RunOutcome :=
  .completed ⟨.exited 0, stdout, []⟩

/-- A completed process with exit code 128 and the stderr line fatal. -/
def outFail : RunOutcome :=
  .completed ⟨.exited 128, [], str "fatal"⟩

/-- The error run_git reports for a git describe run that completed as
outFail. -/
def eFail : GitError :=
  .toolFailed (str "git describe") 128 (some (str "fatal"))

/-- A world where every git invocation fails with exit code 128. -/
def wFail : World where
  cwd := [str "proj"]
  manifest_dir := some [str "proj"]
  cargo_pkg_version := none
  run := fun _ _ => outFail

/-- A world where rev-parse reports .git, submodule enumeration reports
sub-a and sub-b, and every describe reports v1.0. -/
def wOk : World where
  cwd := [str "proj"]
  manifest_dir := some [str "proj"]
  cargo_pkg_version := none
  run := fun _ args =>
    if args = [str "rev-parse", str "--git-dir"] then outOk (str ".git" ++ [10])
    else if args.head? = some (str "submodule") then
      outOk (str "sub-a" ++ [10] ++ str "sub-b" ++ [10])
    else outOk (str "v1.0" ++ [10])

/-- Like wOk, except that describing the submodule sub-b fails. -/
def wMixed : World where
  cwd := [str "proj"]
  manifest_dir := some [str "proj"]
  cargo_pkg_version := none
  run := fun dir args =>
    if args = [str "rev-parse", str "--git-dir"] then outOk (str ".git" ++ [10])
    else if args.head? = some (str "submodule") then
      outOk (str "sub-a" ++ [10] ++ str "sub-b" ++ [10])
    else if dir.getLast? = some (str "sub-b") then outFail
    else outOk (str "v1.0" ++ [10])

/-- Like wOk, except that the submodule enumeration reports nothing. -/
def wNoSub : World where
  cwd := [str "proj"]
  manifest_dir := some [str "proj"]
  cargo_pkg_version := none
  run := fun _ args =>
    if args = [str "rev-parse", str "--git-dir"] then outOk (str ".git" ++ [10])
    else if args.head? = some (str "submodule") then outOk []
    else outOk (str "v1.0" ++ [10])

/-- Like wFail, but with the CARGO_PKG_VERSION variable set to 0.2.0. -/
def wCargo : World :=
  { wFail with cargo_pkg_version := some (str "0.2.0") }

/-- The git_version arguments cargo-prefix c: and fallback fb. -/
def aCargo : Args :=
  { cargo_pfx := some (str "c:"), fallback := some (str "fb") }

/-- strip_trailing_newline leaves a byte string that does not end in a
newline unchanged. -/
theorem strip_of_not_newline (s : Str) (h : s.getLast? ≠ some 10) :
    strip_trailing_newline s = s := by
  unfold strip_trailing_newline
  rw [if_neg h]

end GitVersion

namespace GitVersion

example : str "ab" = [97, 98] := by decide
example : str "ab" = [97, 98] := rfl
example : utf8Valid (str "abc") = true := by decide
example : utf8Valid [0xC0, 0x80] = false := by decide
example : splitBytes 10 (str "a" ++ [10] ++ str "b") = [str "a", str "b"] := by decide
example : splitBytes 10 [] = [[]] := by decide
example : strip_trailing_newline (str "a" ++ [10]) = str "a" := by decide

example : describe_cwd wOk [str "--always", str "--dirty=-modified"] = .ok (str "v1.0") := rfl
example : describe_cwd wFail [] = .error eFail := rfl
example : git_dir wOk [str "proj"] = .ok [str "proj", str ".git"] := rfl
example : get_submodules wOk [str "proj"] = .ok [str "sub-a", str "sub-b"] := rfl
example : git_dependencies wOk = .ok () := rfl
example : git_version_impl {} wOk = .ok (str "v1.0") := rfl
example :
    git_submodule_versions_impl {} wOk =
      .ok [(str "sub-a", str "v1.0"), (str "sub-b", str "v1.0")] := rfl
example :
    git_submodule_versions_impl {} wMixed = .error (.git eFail) := rfl
example :
    git_submodule_versions_impl { fallback := some (str "fb") } wMixed =
      .ok [(str "sub-a", str "v1.0"), (str "sub-b", str "fb")] := rfl

/-- C9: the trailing-newline strip is idempotent — on a byte string with no
trailing newline it is the identity, and on a byte string with exactly one
trailing newline applying it twice equals applying it once. -/
theorem C9_strip_idempotent (s t : Str)
    (hs : s.getLast? ≠ some 10) (ht : t.getLast? ≠ some 10) :
    strip_trailing_newline s = s ∧
    strip_trailing_newline (strip_trailing_newline (t ++ [10])) =
      strip_trailing_newline (t ++ [10]) := by
  refine ⟨strip_of_not_newline s hs, ?_⟩
  have h1 : strip_trailing_newline (t ++ [10]) = t := by
    unfold strip_trailing_newline
    rw [if_pos (by rw [List.getLast?_concat])]
    exact List.dropLast_concat
  rw [h1, strip_of_not_newline t ht]

/-- Witness for C9 at the concrete strings abc and ab. -/
theorem C9_strip_idempotent_witness :
    (str "abc").getLast? ≠ some 10 ∧ (str "ab").getLast? ≠ some 10 ∧
    strip_trailing_newline (str "abc") = str "abc" ∧
    strip_trailing_newline (strip_trailing_newline (str "ab" ++ [10])) =
      strip_trailing_newline (str "ab" ++ [10]) := by
  have h := C9_strip_idempotent (str "abc") (str "ab") (by decide) (by decide)
  exact ⟨by decide, by decide, h.1, h.2⟩

/-- C8: with no describe-argument override, both macro implementations
behave exactly as with the explicit argument list containing
dash-dash-always and dash-dash-dirty-equals-dash-modified, for every world
and every other configuration value. -/
theorem C8_default_args_equiv (w : World) (p s cp cs fb : Option Str)
    (mp ms mf : Option Str) :
    git_version_impl ⟨none, p, s, cp, cs, fb⟩ w =
      git_version_impl ⟨some [str "--always", str "--dirty=-modified"], p, s, cp, cs, fb⟩ w ∧
    git_submodule_versions_impl ⟨none, mp, ms, mf⟩ w =
      git_submodule_versions_impl ⟨some [str "--always", str "--dirty=-modified"], mp, ms, mf⟩ w :=
  ⟨rfl, rfl⟩

/-- Counterexample to C3: for stderr starting with an empty line followed
by a non-empty line, collect_output drops the detail entirely, while the
claim says the first non-empty line (here the word fatal) is the detail. -/
theorem C3_first_line_counterexample :
    collect_output (str "git describe") ⟨.exited 1, [], 10 :: str "fatal"⟩ =
      .error (.toolFailed (str "git describe") 1 none) ∧
    claimed_first_stderr_line (10 :: str "fatal") = some (str "fatal") := by
  constructor
  · rfl
  · rfl

/-- C3 amended: for a run that exits with a non-zero code, collect_output
returns a tool-failure error whose detail is the first chunk of stderr
split on newline, kept only when that chunk is non-empty and valid UTF-8;
otherwise the error carries the exit code with no detail. -/
theorem C3_first_line_amended (program : Str) (c : Int) (stdout stderr : Str)
    (h : c ≠ 0) :
    collect_output program ⟨.exited c, stdout, stderr⟩ =
      .error (.toolFailed program c (first_line_detail stderr)) := by
  have hsucc : (ExitStatus.exited c).success = false := by
    simp [ExitStatus.success, h]
  unfold collect_output
  rw [hsucc]
  simp only [Bool.false_eq_true, if_false, ExitStatus.code]
  unfold first_line_detail
  cases hh : (splitBytes 10 stderr).head? with
  | none => simp [hh]
  | some l =>
    by_cases hv : utf8Valid l
    · by_cases he : l.isEmpty
      · simp [hh, hv, he, Option.filter]
      · simp [hh, hv, he, Option.filter]
    · simp [hh, hv, Option.filter]

/-- Witness for amended C3 at exit code 1 and a one-line stderr. -/
theorem C3_first_line_amended_witness :
    collect_output (str "git") ⟨.exited 1, [], str "err"⟩ =
      .error (.toolFailed (str "git") 1 (first_line_detail (str "err"))) ∧
    first_line_detail (str "err") = some (str "err") := by
  refine ⟨C3_first_line_amended (str "git") 1 [] (str "err") (by decide), by decide⟩

/-- C5: whenever describe succeeds with a raw version v and the
dependency-tracking step succeeds, the single-target macro produces
exactly the concatenation of the configured prefix, v and the configured
suffix, with the empty string standing in for an unset prefix or suffix. -/
theorem C5_decoration_law (a : Args) (w : World) (v : Str)
    (hok : describe_cwd w (a.git_args.getD [str "--always", str "--dirty=-modified"]) = .ok v)
    (hdep : git_dependencies w = .ok ()) :
    git_version_impl a w = .ok ((a.pfx.getD []) ++ v ++ (a.suffix.getD [])) := by
  simp only [git_version_impl, hok, hdep]

/-- Witness for C5 in the world wOk with bracket decorations. -/
theorem C5_decoration_law_witness :
    git_version_impl ⟨none, some (str "["), some (str "]"), none, none, none⟩ wOk =
      .ok (str "[v1.0]") := by
  rw [C5_decoration_law ⟨none, some (str "["), some (str "]"), none, none, none⟩ wOk
    (str "v1.0") rfl rfl]
  rfl

/-- C6: when the manifest directory resolves, the git directory is found
and submodule enumeration reports zero paths, the submodule macro returns
the empty table as a success. -/
theorem C6_empty_submodule_set (a : GitModArgs) (w : World) (d gd : Path)
    (hm : w.manifest_dir = some d)
    (hg : git_dir w d = .ok gd)
    (hs : get_submodules w d = .ok []) :
    git_submodule_versions_impl a w = .ok [] := by
  simp only [git_submodule_versions_impl, hm, hg, hs, List.isEmpty_nil, if_true]

/-- Witness for C6: a world with a repository but no submodules. -/
theorem C6_empty_submodule_set_witness :
    git_submodule_versions_impl { fallback := some (str "fb") } wNoSub = .ok [] :=
  C6_empty_submodule_set _ wNoSub [str "proj"] [str "proj", str ".git"] rfl rfl rfl

/-- C7: a failure of the repository locator, or of the submodule
enumerator, makes the whole submodule macro call fail with that error,
whatever the configured fallback is. -/
theorem C7_locator_enumerator_fatal (a : GitModArgs) (w : World) (d : Path)
    (e : GitError) (hm : w.manifest_dir = some d) :
    (git_dir w d = .error e →
      git_submodule_versions_impl a w = .error (.gitDir e)) ∧
    (∀ gd, git_dir w d = .ok gd → get_submodules w d = .error e →
      git_submodule_versions_impl a w = .error (.git e)) := by
  constructor
  · intro hg
    simp only [git_submodule_versions_impl, hm, hg]
  · intro gd hg hs
    simp only [git_submodule_versions_impl, hm, hg, hs]

/-- Witness for C7: in the world wFail the locator fails, and the macro
fails even though a fallback is configured. -/
theorem C7_locator_enumerator_fatal_witness :
    git_submodule_versions_impl { fallback := some (str "fb") } wFail =
      .error (.gitDir (.toolFailed (str "git rev-parse") 128 (some (str "fatal")))) :=
  (C7_locator_enumerator_fatal { fallback := some (str "fb") } wFail [str "proj"]
    (.toolFailed (str "git rev-parse") 128 (some (str "fatal"))) rfl).1 rfl

/-- C10: when cargo_prefix or cargo_suffix is given and describe fails, the
single-target macro takes the CARGO_PKG_VERSION variable decorated with
cargo_prefix and cargo_suffix; the plain fallback is used only when that
variable is absent, and an error is reported only when neither source is
available. -/
theorem C10_cargo_version_tier (a : Args) (w : World) (e : GitError)
    (hcargo : (a.cargo_pfx.isSome || a.cargo_suffix.isSome) = true)
    (hdesc : describe_cwd w (a.git_args.getD [str "--always", str "--dirty=-modified"]) = .error e) :
    (∀ cv, w.cargo_pkg_version = some cv →
      git_version_impl a w = .ok ((a.cargo_pfx.getD []) ++ cv ++ (a.cargo_suffix.getD []))) ∧
    (∀ fb, w.cargo_pkg_version = none → a.fallback = some fb →
      git_version_impl a w = .ok fb) ∧
    (w.cargo_pkg_version = none → a.fallback = none →
      git_version_impl a w = .error .noVersion) := by
  refine ⟨?_, ?_, ?_⟩
  · intro cv hcv
    simp only [git_version_impl, hdesc, hcargo, hcv, if_true]
  · intro fb hcv hfb
    simp only [git_version_impl, hdesc, hcargo, hcv, hfb, if_true]
  · intro hcv hfb
    simp only [git_version_impl, hdesc, hcargo, hcv, hfb, if_true]

/-- Witness for C10: describe fails, CARGO_PKG_VERSION is 0.2.0 and
cargo_prefix is configured, so the cargo tier wins over the fallback. -/
theorem C10_cargo_version_tier_witness :
    git_version_impl aCargo wCargo =
      .ok ((aCargo.cargo_pfx.getD []) ++ str "0.2.0" ++ (aCargo.cargo_suffix.getD [])) :=
  (C10_cargo_version_tier aCargo wCargo eFail rfl rfl).1 (str "0.2.0") rfl

/-- Unfolding step of describe_submodules when the head submodule
describes successfully. -/
theorem describe_submodules_cons_ok (w : World) (root : Path) (m : Str)
    (rest : List Str) (dargs : List Str) (p s : Str) (fb : Option Str) (v : Str)
    (h : describe w (pathJoin root m) dargs = .ok v) :
    describe_submodules w root (m :: rest) dargs p s fb =
      (describe_submodules w root rest dargs p s fb).map
        (fun vs => (p ++ v ++ s) :: vs) := by
  generalize hrec : describe_submodules w root rest dargs p s fb = r
  unfold describe_submodules
  rw [h, hrec]
  cases r <;> rfl

/-- Unfolding step of describe_submodules when the head submodule fails
and a fallback is configured. -/
theorem describe_submodules_cons_fb (w : World) (root : Path) (m : Str)
    (rest : List Str) (dargs : List Str) (p s : Str) (fbv : Str) (e : GitError)
    (h : describe w (pathJoin root m) dargs = .error e) :
    describe_submodules w root (m :: rest) dargs p s (some fbv) =
      (describe_submodules w root rest dargs p s (some fbv)).map
        (fun vs => (p ++ fbv ++ s) :: vs) := by
  generalize hrec : describe_submodules w root rest dargs p s (some fbv) = r
  unfold describe_submodules
  rw [h, hrec]
  cases r <;> rfl

/-- Unfolding step of describe_submodules when the head submodule fails
and no fallback is configured: the error aborts the whole run. -/
theorem describe_submodules_cons_err (w : World) (root : Path) (m : Str)
    (rest : List Str) (dargs : List Str) (p s : Str) (e : GitError)
    (h : describe w (pathJoin root m) dargs = .error e) :
    describe_submodules w root (m :: rest) dargs p s none = .error e := by
  unfold describe_submodules
  rw [h]

/-- A successful describe_submodules run produces one version per
submodule. -/
theorem describe_submodules_length (w : World) (root : Path) (mods : List Str)
    (dargs : List Str) (p s : Str) (fb : Option Str) (vs : List Str)
    (h : describe_submodules w root mods dargs p s fb = .ok vs) :
    vs.length = mods.length := by
  induction mods generalizing vs with
  | nil =>
    unfold describe_submodules at h
    cases h
    rfl
  | cons m rest ih =>
    cases hd : describe w (pathJoin root m) dargs with
    | ok v =>
      rw [describe_submodules_cons_ok w root m rest dargs p s fb v hd] at h
      cases hrec : describe_submodules w root rest dargs p s fb with
      | error e =>
        rw [hrec] at h
        exact Except.noConfusion h
      | ok versions =>
        rw [hrec] at h
        have h' : Except.ok ((p ++ v ++ s) :: versions) = Except.ok vs := h
        cases h'
        simp [ih versions hrec]
    | error e =>
      cases fb with
      | none =>
        rw [describe_submodules_cons_err w root m rest dargs p s e hd] at h
        exact Except.noConfusion h
      | some fbv =>
        rw [describe_submodules_cons_fb w root m rest dargs p s fbv e hd] at h
        cases hrec : describe_submodules w root rest dargs p s (some fbv) with
        | error e2 =>
          rw [hrec] at h
          exact Except.noConfusion h
        | ok versions =>
          rw [hrec] at h
          have h' : Except.ok ((p ++ fbv ++ s) :: versions) = Except.ok vs := h
          cases h'
          simp [ih versions hrec]

/-- When every submodule before some failing submodule describes
successfully and no fallback is given, describe_submodules aborts with the
error of the failing submodule. -/
theorem describe_submodules_abort (w : World) (root : Path) (dargs : List Str)
    (p s : Str) (post : List Str) (m : Str) (e : GitError)
    (hm : describe w (pathJoin root m) dargs = .error e) :
    ∀ pre : List Str,
      (∀ x ∈ pre, ∃ v, describe w (pathJoin root x) dargs = .ok v) →
      describe_submodules w root (pre ++ m :: post) dargs p s none = .error e := by
  intro pre
  induction pre with
  | nil =>
    intro _
    simp only [List.nil_append]
    exact describe_submodules_cons_err w root m post dargs p s e hm
  | cons x pre ih =>
    intro hpre
    obtain ⟨v, hv⟩ := hpre x (List.mem_cons_self x _)
    have hrec := ih (fun y hy => hpre y (List.mem_cons_of_mem x hy))
    simp only [List.cons_append]
    rw [describe_submodules_cons_ok w root x (pre ++ m :: post) dargs p s none v hv,
      hrec]
    rfl

/-- C2: when a submodule fails to describe, no fallback is configured and
every earlier submodule succeeded, the whole submodule macro call returns
that submodule error and no partial table. -/
theorem C2_abort_on_error (a : GitModArgs) (w : World) (d gd : Path)
    (pre post : List Str) (m : Str) (e : GitError)
    (hm : w.manifest_dir = some d)
    (hfb : a.fallback = none)
    (hgd : git_dir w d = .ok gd)
    (hsub : get_submodules w d = .ok (pre ++ m :: post))
    (hpre : ∀ x ∈ pre, ∃ v,
      describe w (pathJoin (pathJoin gd (str "..")) x)
        (a.args.getD [str "--always", str "--dirty=-modified"]) = .ok v)
    (hfail : describe w (pathJoin (pathJoin gd (str "..")) m)
        (a.args.getD [str "--always", str "--dirty=-modified"]) = .error e) :
    git_submodule_versions_impl a w = .error (.git e) := by
  have habort := describe_submodules_abort w (pathJoin gd (str ".."))
    (a.args.getD [str "--always", str "--dirty=-modified"])
    (a.pfx.getD []) (a.suffix.getD []) post m e hfail pre hpre
  have hne : (pre ++ m :: post).isEmpty = false := by
    cases pre <;> rfl
  simp only [git_submodule_versions_impl, hm, hgd, hsub, hne, hfb, habort,
    Bool.false_eq_true, if_false]

/-- Witness for C2 in the world wMixed, where sub-a succeeds and sub-b
fails: no partial table survives. -/
theorem C2_abort_on_error_witness :
    git_submodule_versions_impl ({} : GitModArgs) wMixed = .error (.git eFail) := by
  refine C2_abort_on_error {} wMixed [str "proj"] [str "proj", str ".git"]
    [str "sub-a"] [] (str "sub-b") eFail rfl rfl rfl rfl ?_ rfl
  intro x hx
  rw [List.mem_singleton] at hx
  subst hx
  exact ⟨str "v1.0", rfl⟩

/-- C4: a successful submodule macro call returns exactly one entry per
discovered submodule, with the paths in enumeration order. -/
theorem C4_order_preservation (a : GitModArgs) (w : World) (d : Path)
    (mods : List Str) (entries : List (Str × Str))
    (hm : w.manifest_dir = some d)
    (hs : get_submodules w d = .ok mods)
    (himpl : git_submodule_versions_impl a w = .ok entries) :
    entries.map Prod.fst = mods ∧ entries.length = mods.length := by
  have hfst : entries.map Prod.fst = mods := by
    simp only [git_submodule_versions_impl, hm, hs] at himpl
    split at himpl
    · exact Except.noConfusion himpl
    · split at himpl
      · next hemp =>
        cases himpl
        rw [List.isEmpty_iff] at hemp
        rw [hemp]
        rfl
      · next hemp =>
        split at himpl
        · exact Except.noConfusion himpl
        · next versions heq =>
          cases himpl
          exact List.map_fst_zip mods versions
            (le_of_eq (describe_submodules_length _ _ _ _ _ _ _ _ heq).symm)
  exact ⟨hfst, by rw [← hfst, List.length_map]⟩

/-- Witness for C4 in the world wOk with two submodules. -/
theorem C4_order_preservation_witness :
    ([(str "sub-a", str "v1.0"), (str "sub-b", str "v1.0")].map Prod.fst
        = [str "sub-a", str "sub-b"]) ∧
    ([(str "sub-a", str "v1.0"), (str "sub-b", str "v1.0")].length
        = [str "sub-a", str "sub-b"].length) :=
  C4_order_preservation {} wOk [str "proj"] [str "sub-a", str "sub-b"]
    [(str "sub-a", str "v1.0"), (str "sub-b", str "v1.0")] rfl rfl rfl

/-- Counterexample to C1: in submodule aggregation the fallback is not
returned verbatim — the configured decorations are applied to it. With
pfx p, suffix s and fallback fb, the failing submodule yields the entry
pfbs, not fb. -/
theorem C1_fallback_verbatim_counterexample :
    describe_submodules wFail [str "root"] [str "m"] [] (str "p") (str "s")
        (some (str "fb")) = .ok [str "p" ++ str "fb" ++ str "s"] ∧
    str "p" ++ str "fb" ++ str "s" ≠ str "fb" :=
  ⟨rfl, by decide⟩

/-- C1 amended: when derivation fails and a fallback is set, the
single-target macro (with no cargo_prefix or cargo_suffix configured)
returns the fallback verbatim with no decoration, while the submodule
aggregation substitutes the fallback for the raw version and then applies
the configured decorations to it like to any successful version. -/
theorem C1_fallback_policy_amended :
    (∀ (a : Args) (w : World) (e : GitError) (fb : Str),
      a.cargo_pfx = none → a.cargo_suffix = none → a.fallback = some fb →
      describe_cwd w (a.git_args.getD [str "--always", str "--dirty=-modified"]) = .error e →
      git_version_impl a w = .ok fb) ∧
    (∀ (w : World) (root : Path) (mods dargs : List Str) (p s fb : Str),
      (∀ x ∈ mods, ∃ e, describe w (pathJoin root x) dargs = .error e) →
      describe_submodules w root mods dargs p s (some fb) =
        .ok (mods.map (fun _ => p ++ fb ++ s))) := by
  constructor
  · intro a w e fb hcp hcs hfb hdesc
    simp [git_version_impl, hdesc, hcp, hcs, hfb]
  · intro w root mods dargs p s fb
    induction mods with
    | nil => intro _; rfl
    | cons m rest ih =>
      intro hall
      obtain ⟨e, he⟩ := hall m (List.mem_cons_self m rest)
      have hrec := ih (fun y hy => hall y (List.mem_cons_of_mem m hy))
      simp only [describe_submodules, he, hrec, List.map_cons]

/-- Witness for amended C1: with decorations p and s and fallback fb
configured and git failing, the single-target macro yields fb verbatim
while the submodule aggregation yields the decorated entry. -/
theorem C1_fallback_policy_witness :
    git_version_impl ⟨none, some (str "p"), some (str "s"), none, none, some (str "fb")⟩ wFail =
      .ok (str "fb") ∧
    describe_submodules wFail [str "root"] [str "m"] [] (str "p") (str "s")
        (some (str "fb")) =
      .ok ([str "m"].map (fun _ => str "p" ++ str "fb" ++ str "s")) := by
  constructor
  · exact C1_fallback_policy_amended.1 _ wFail eFail (str "fb") rfl rfl rfl rfl
  · refine C1_fallback_policy_amended.2 wFail [str "root"] [str "m"] []
      (str "p") (str "s") (str "fb") ?_
    intro x hx
    rw [List.mem_singleton] at hx
    subst hx
    exact ⟨eFail, rfl⟩

end GitVersion
